import Mathlib

/-!
Verification of the neuroglancer formatting scripts: a shallow embedding of
the multiresolution pyramid writer, the aggregation path, and the process
pool, translated from `src/neuroglancer_interface/utils/data_utils.py`,
`src/neuroglancer_interface/modules/cell_types_ome_zarr.py` and
`convert_cell_types_to_ome_zarr.py`.
-/

/-- Python exceptions that the embedded code can raise.  `nameError v` is the
exception raised when an undefined variable `v` is referenced while building a
message; `runtimeError m` is `RuntimeError` with the optional message `m`
(Python allows `raise RuntimeError` with no argument); `attributeError mod a`
is the `AttributeError` raised when module `mod` has no attribute `a`. -/
inductive PyError where
  | nameError (missing : String)
  | runtimeError (msg : Option String)
  | attributeError (modName : String) (attrName : String)
  deriving Repr, DecidableEq

/-- Scalar `numpy.allclose` with the default tolerances
`rtol = 1e-5`, `atol = 1e-8`: true when `|a - b| <= atol + rtol * |b|`.
The comparison is written in cross-multiplied integer form over the exact
numerators and denominators (the denominators are positive), so that it
evaluates by kernel reduction:
`|a - b| <= 1 / 10^8 + |b| / 10^5` over exact rationals is equivalent to
`|a.num * b.den - b.num * a.den| * (10^8 * 10^5 * b.den)
   <= (10^5 * b.den + 10^8 * |b.num|) * (a.den * b.den)`. -/
def np_allclose (a b : ℚ) : Bool :=
  decide ((a.num * (b.den : ℤ) - b.num * (a.den : ℤ)).natAbs
      * (100000000 * 100000 * b.den)
    ≤ (100000 * b.den + 100000000 * b.num.natAbs) * (a.den * b.den))

/-- `numpy.allclose` on the three-component physical scales, as used by
`write_summed_nii_files_to_group` (data_utils.py line 377). -/
def np_allclose3 (a b : ℚ × ℚ × ℚ) : Bool :=
  np_allclose a.1 b.1 && np_allclose a.2.1 b.2.1 && np_allclose a.2.2 b.2.2

/-- The result of `nii_obj.get_channel(...)`: a 3-D scalar array together
with its physical voxel scales.  The dtype is modelled by its bit width
`width`; stored samples are unsigned integers reduced modulo `2 ^ width`. -/
structure NiftiChannel where
  shape : ℕ × ℕ × ℕ
  scales : ℚ × ℚ × ℚ
  width : ℕ
  data : ℕ × ℕ × ℕ → ℕ

/-- The numpy statement `main_array += this_array` (data_utils.py line 386):
an in-place elementwise add whose result is cast back into the dtype of
`main` (the left operand), so each sample is reduced modulo `2 ^ main.width`.
The shape, scales and dtype of `main` are kept. -/
def iadd (main other : NiftiChannel) : NiftiChannel :=
  ⟨main.shape, main.scales, main.width,
   fun i => (main.data i + other.data i) % 2 ^ main.width⟩

/-- Loop body of `write_summed_nii_files_to_group` (data_utils.py lines
350-386) after the first file has been loaded into `main_array`.  For each
later file: if the shapes differ, the code builds a message interpolating the
variable `main_path` -- but the variable actually bound on line 368 is
`main_pth`, so evaluating the f-string raises `NameError` for `main_path`
before any `RuntimeError` can be raised.  The scale branch (line 379) builds
its message from `main_path` as well, so it raises the same `NameError`
(and had the message been built, line 384 is a bare `raise RuntimeError`
that would discard it).  Otherwise the file is accumulated in place into
`main_array`. -/
def write_summed_nii_files_to_group_aux (main : NiftiChannel) :
    List NiftiChannel → Except PyError NiftiChannel
  | [] => Except.ok main
  | c :: rest =>
    if c.shape ≠ main.shape then
      Except.error (PyError.nameError "main_path")
    else if np_allclose3 main.scales c.scales = false then
      Except.error (PyError.nameError "main_path")
    else
      write_summed_nii_files_to_group_aux (iadd main c) rest

/-- Summation phase of `write_summed_nii_files_to_group` (data_utils.py
lines 333-397): the first file becomes `main_array` and fixes the reference
shape and scales, every later file is checked and accumulated in place, and
the result is handed to `write_array_to_group`.  With an empty file list,
`main_array` stays `None` and `write_array_to_group` would fail reading
`None.dtype`; both callers guard against the empty case. -/
def write_summed_nii_files_to_group :
    List NiftiChannel → Except PyError NiftiChannel
  | [] => Except.error (PyError.attributeError "NoneType" "dtype")
  | c :: rest => write_summed_nii_files_to_group_aux c rest

/-- The true elementwise sum of the source arrays, with no dtype wrapping:
the composite the specification asks for. -/
def elementwise_sum (srcs : List NiftiChannel) (i : ℕ × ℕ × ℕ) : ℕ :=
  (srcs.map (fun c => c.data i)).sum

/-- `_write_summed_object_worker` (convert_cell_types_to_ome_zarr.py lines
65-85), store-node view: for each key of its group list the worker resolves
the cluster names through `cluster_to_path`, and only when the resolved file
list is non-empty does it create a child group and write the sum.  The
returned list is the list of group names actually created; keys resolving to
zero files are skipped without error. -/
def write_summed_object_worker_created
    (obj_to_clusters : List (String × List String))
    (cluster_to_path : List (String × String))
    (group_list : List String) : List String :=
  group_list.filter
    (fun key =>
      ((obj_to_clusters.lookup key).getD []).filterMap
        (fun c => cluster_to_path.lookup c) ≠ [])

/-- `create_root_group` (data_utils.py lines 27-49) acting on an abstract
root directory: `none` means the output directory does not exist, `some cs`
means it exists with contents `cs`.  If it exists and `clobber` is false the
function raises before touching anything; with `clobber` it removes the tree
and recreates the directory empty (the zarr store metadata written by
`parse_url`/`zarr.group` is abstracted away); if it does not exist it is
simply created empty. -/
def create_root_group (root : Option (List String)) (clobber : Bool) :
    Except PyError Unit × Option (List String) :=
  match root with
  | some _ =>
    if clobber = false then
      (Except.error (PyError.runtimeError (some "exists")), root)
    else
      (Except.ok (), some [])
  | none => (Except.ok (), some [])

/-- Public attributes of the Python standard-library module `shutil`.
The salient fact for `write_sub_group` is that there is no `cp`. -/
def shutil_attr_names : List String :=
  ["copy", "copy2", "copyfile", "copyfileobj", "copymode", "copystat",
   "copytree", "rmtree", "move", "which", "chown", "disk_usage",
   "make_archive", "unpack_archive", "get_terminal_size"]

/-- Python attribute lookup on the `shutil` module. -/
def shutil_getattr (nm : String) : Option String :=
  if nm ∈ shutil_attr_names then some nm else none

/-- Manifest-copy step of `write_sub_group` (cell_types_ome_zarr.py lines
85-92): if a `manifest.csv` already exists at the destination a
`RuntimeError` is raised; otherwise the code evaluates `shutil.cp`, an
attribute that does not exist in the standard library (the function is
`shutil.copy`), so an `AttributeError` is raised and no copy happens. -/
def write_sub_group_copy_manifest (dest_exists : Bool) : Except PyError Unit :=
  if dest_exists then
    Except.error (PyError.runtimeError (some "manifest.csv already exists"))
  else
    match shutil_getattr "cp" with
    | none => Except.error (PyError.attributeError "shutil" "cp")
    | some _ => Except.ok ()

/-- File selection of `write_sub_group` (cell_types_ome_zarr.py lines
62-63): `[n for n in input_dir.rglob(...) if n.is_file()][:10]`.  An entry is
a path paired with its `is_file()` result; the slice keeps at most the first
ten matching files. -/
def write_sub_group_file_selection (entries : List (String × Bool)) :
    List String :=
  ((entries.filter (fun e => e.2)).map (fun e => e.1)).take 10

/-- Entry check of `write_nii_file_list_to_ome_zarr` (data_utils.py lines
119-137): when the two lists have different lengths a mismatch message is
assigned to the local `msg`, but no exception is raised and no other use is
made of `msg`; the function simply proceeds with both lists as given.  The
returned triple is (file list, group list, the constructed message). -/
def write_nii_file_list_to_ome_zarr_entry (fps gns : List String) :
    Except PyError (List String × List String × Option String) :=
  let msg : Option String :=
    if fps.length ≠ gns.length then
      some ("gave " ++ toString fps.length ++ " file paths but "
            ++ toString gns.length ++ " group names")
    else none
  Except.ok (fps, gns, msg)

/-- Chunk shape chosen by `write_array_to_group` (data_utils.py lines
493-495): `max(1, min(shape[d] // 4, default_chunk))` in each spatial
dimension. -/
def write_array_to_group_chunks (shape : ℕ × ℕ × ℕ) (default_chunk : ℕ) :
    ℕ × ℕ × ℕ :=
  (max 1 (min (shape.1 / 4) default_chunk),
   max 1 (min (shape.2.1 / 4) default_chunk),
   max 1 (min (shape.2.2 / 4) default_chunk))

/-- Coordinate transforms written by `write_array_to_group` (data_utils.py
lines 457-478).  `levels` is the list of downsampled level shapes returned by
the downscaler (`create_empty_pyramid`); the transform for the base level is
exactly the physical scale, and for each downsampled level shape `n` the
recorded scale is `base_scale[d] * arr.shape[d] / n[d]`.  When
`downscale <= 1` no scaler is built and only the base transform is
recorded. -/
def write_array_to_group_coord_transform (xs ys zs : ℚ) (shape : ℕ × ℕ × ℕ)
    (downscale : ℕ) (levels : List (ℕ × ℕ × ℕ)) : List (ℚ × ℚ × ℚ) :=
  if 1 < downscale then
    (xs, ys, zs) ::
      levels.map (fun n =>
        (xs * (shape.1 : ℚ) / (n.1 : ℚ),
         ys * (shape.2.1 : ℚ) / (n.2.1 : ℚ),
         zs * (shape.2.2 : ℚ) / (n.2.2 : ℚ)))
  else [(xs, ys, zs)]

/-- The pyramid level shapes corresponding to the recorded transforms:
level 0 is the unmodified array shape, the later levels are the downscaler
output (empty when `downscale <= 1`). -/
def pyramid_shapes (shape : ℕ × ℕ × ℕ) (downscale : ℕ)
    (levels : List (ℕ × ℕ × ℕ)) : List (ℕ × ℕ × ℕ) :=
  if 1 < downscale then shape :: levels else [shape]

/-- Static round-robin partition used by `write_nii_file_list_to_ome_zarr`
(data_utils.py lines 159-172): item `ii` goes to bucket `ii % k`, preserving
order within each bucket. -/
def roundRobinBuckets (k : ℕ) (items : List α) : List (List α) :=
  (List.range k).map
    (fun j => (items.enum.filter (fun p => p.1 % k == j)).map Prod.snd)

/-- Dispatch of `write_nii_file_list_to_ome_zarr` (data_utils.py lines
139-192): a single item is converted in the calling process; otherwise the
items are distributed round-robin over
`min(max(1, n_processors - 1), len(items))` worker processes. -/
def write_nii_static_dispatch (n_processors : ℕ) (items : List α) :
    List (List α) :=
  if items.length = 1 then [items]
  else roundRobinBuckets (min (max 1 (n_processors - 1)) items.length) items

/-- Contiguous chunking by the slice loop
`for i0 in range(0, len(items), n): items[i0 : i0 + n]`
(convert_cell_types_to_ome_zarr.py lines 42-44). -/
def chunksOf (n : ℕ) (l : List α) : List (List α) :=
  (List.range ((l.length + n - 1) / n)).map
    (fun i => (l.drop (i * n)).take n)

/-- Chunking performed by `write_summed_object`
(convert_cell_types_to_ome_zarr.py lines 37-44): with
`n_workers = max(1, n_processors - 1)` the items are cut into contiguous
chunks of stride `n_per = max(1, floor(len(items) / n_workers))`. -/
def write_summed_object_chunks (n_processors : ℕ) (items : List α) :
    List (List α) :=
  chunksOf (max 1 (items.length / max 1 (n_processors - 1))) items

/-- Modelled from the spec: the helper `_winnow_process_list` lives in
`neuroglancer_interface/utils/multiprocessing_utils.py`, which is not under
src/.  Per the spec the launcher resumes "only after periodically reaping
finished processes", so the helper joins and removes exactly the processes
that have terminated and returns the still-running ones.  Termination is an
external schedule: `fin t p` says whether process `p` has terminated by poll
step `t`. -/
def winnow_process_list (fin : ℕ → ℕ → Bool) (t : ℕ) (ps : List ℕ) :
    List ℕ :=
  ps.filter (fun p => !fin t p)

/-- One `p.join()` call: block (polling under the schedule `fin`) until
process `p` has terminated, returning the poll step at which it was
observed terminated.  `fuel` bounds the polls we model; `none` means the
join is still blocked when the fuel runs out. -/
def process_join_wait (fin : ℕ → ℕ → Bool) (p : ℕ) :
    ℕ → ℕ → Option ℕ
  | 0, t => if fin t p then some t else none
  | fuel + 1, t => if fin t p then some t else process_join_wait fin p fuel (t + 1)

/-- The loop `for p in process_list: p.join()` (data_utils.py lines 191-192
and convert_cell_types_to_ome_zarr.py lines 57-58): join every process in
order.  Returns the final poll step when every join completed. -/
def join_process_list (fin : ℕ → ℕ → Bool) (fuel : ℕ) :
    ℕ → List ℕ → Option ℕ
  | t, [] => some t
  | t, p :: rest =>
    match process_join_wait fin p fuel t with
    | none => none
    | some u => join_process_list fin fuel u rest

/-- The gate `while len(process_list) >= n_workers: process_list =
_winnow_process_list(process_list)` (convert_cell_types_to_ome_zarr.py lines
54-55): poll and reap until the process list is shorter than the bound. -/
def poll_below_bound (fin : ℕ → ℕ → Bool) (bound : ℕ) :
    ℕ → ℕ → List ℕ → Option (ℕ × List ℕ)
  | 0, t, ps => if ps.length < bound then some (t, ps) else none
  | fuel + 1, t, ps =>
    if ps.length < bound then some (t, ps)
    else poll_below_bound fin bound fuel (t + 1) (winnow_process_list fin t ps)

/-- Spawn loop of `write_summed_object` (convert_cell_types_to_ome_zarr.py
lines 41-58): for each chunk a process is started and appended to the
process list, the launcher then blocks while the list is at least
`bound` long, and after the last spawn every remaining process is joined.
Processes are numbered in spawn order starting from `nextPid`; `log` records
the length of the process list at the moment of each spawn.  The result is
`(number of the next pid after the last spawn, spawn log)`; `none` means the
run is still blocked when the fuel runs out. -/
def write_summed_object_spawn (fin : ℕ → ℕ → Bool) (bound fuel : ℕ) :
    List (List α) → ℕ → ℕ → List ℕ → List ℕ → Option (ℕ × List ℕ)
  | [], nextPid, t, ps, log =>
    (join_process_list fin fuel t ps).map (fun _ => (nextPid, log))
  | _chunk :: rest, nextPid, t, ps, log =>
    match poll_below_bound fin bound fuel t (ps ++ [nextPid]) with
    | none => none
    | some (u, qs) =>
      write_summed_object_spawn fin bound fuel rest (nextPid + 1) u qs
        (log ++ [ps.length])

/-- The whole pool of `write_summed_object`: chunk the items, spawn one
process per chunk under the bound `max 1 (n_processors - 1)`, reap and
join as in the source. -/
def write_summed_object_pool (fin : ℕ → ℕ → Bool) (fuel n_processors : ℕ)
    (items : List α) : Option (ℕ × List ℕ) :=
  write_summed_object_spawn fin (max 1 (n_processors - 1)) fuel
    (write_summed_object_chunks n_processors items) 0 0 [] []

/-- The join phase of the static pool (data_utils.py lines 174-192): `k`
processes are started, one per round-robin bucket, and then each is joined
in order. -/
def write_nii_static_pool (fin : ℕ → ℕ → Bool) (fuel k : ℕ) : Option ℕ :=
  join_process_list fin fuel 0 (List.range k)

theorem chunks_flatten_aux (n : ℕ) :
    ∀ (m : ℕ) (l : List α), l.length ≤ m * n →
      ((List.range m).map (fun i => (l.drop (i * n)).take n)).flatten = l := by
  intro m
  induction m with
  | zero =>
    intro l hl
    simp only [Nat.zero_mul, Nat.le_zero, List.length_eq_zero] at hl
    simp [hl]
  | succ m ih =>
    intro l hl
    rw [List.range_succ_eq_map, List.map_cons, List.map_map, List.flatten_cons]
    have hmap : List.map ((fun i => (l.drop (i * n)).take n) ∘ Nat.succ)
        (List.range m)
        = List.map (fun i => ((l.drop n).drop (i * n)).take n) (List.range m) := by
      apply List.map_congr_left
      intro i _
      simp only [Function.comp_apply]
      rw [List.drop_drop]
      have h9 : Nat.succ i * n = n + i * n := by
        rw [Nat.succ_mul]
        omega
      rw [h9]
    rw [hmap, ih (l.drop n) ?_]
    · simp [List.take_append_drop]
    · have h2 : (m + 1) * n = m * n + n := by ring
      rw [h2] at hl
      simp only [List.length_drop]
      omega

theorem chunksOf_flatten (n : ℕ) (hn : 0 < n) (l : List α) :
    (chunksOf n l).flatten = l := by
  apply chunks_flatten_aux
  rcases Nat.eq_zero_or_pos l.length with h0 | hp
  · rw [h0]
    exact Nat.zero_le _
  · have h1 := Nat.div_add_mod (l.length + n - 1) n
    have h2 : (l.length + n - 1) % n < n := Nat.mod_lt _ hn
    have h3 : ((l.length + n - 1) / n) * n = n * ((l.length + n - 1) / n) :=
      Nat.mul_comm _ _
    omega

theorem chunksOf_mem_length (n : ℕ) (hn : 0 < n) (l : List α) :
    ∀ c ∈ chunksOf n l, c ≠ [] ∧ c.length ≤ n := by
  intro c hc
  unfold chunksOf at hc
  rw [List.mem_map] at hc
  obtain ⟨i, hi, rfl⟩ := hc
  rw [List.mem_range] at hi
  have h4 : (i + 1) * n ≤ ((l.length + n - 1) / n) * n :=
    Nat.mul_le_mul_right n (Nat.succ_le_of_lt hi)
  have h5 : ((l.length + n - 1) / n) * n ≤ l.length + n - 1 :=
    Nat.div_mul_le_self _ _
  have h6 : 1 * n ≤ (i + 1) * n := Nat.mul_le_mul_right n (by omega)
  have h7 : (i + 1) * n = i * n + n := Nat.succ_mul i n
  have hlt : i * n < l.length := by omega
  constructor
  · rw [← List.length_pos]
    simp only [List.length_take, List.length_drop]
    omega
  · simp only [List.length_take]
    exact min_le_left _ _

theorem sum_map_indicator (c i : ℕ) :
    ∀ k, ((List.range k).map (fun j => if i = j then c else 0)).sum
      = if i < k then c else 0 := by
  intro k
  induction k with
  | zero => simp
  | succ k ih =>
    rw [List.range_succ, List.map_append, List.sum_append, ih]
    simp only [List.map_cons, List.map_nil, List.sum_cons, List.sum_nil]
    rcases Nat.lt_trichotomy i k with h | h | h
    · rw [if_pos h, if_neg (Nat.ne_of_lt h), if_pos (Nat.lt_succ_of_lt h)]
      omega
    · subst h
      rw [if_neg (Nat.lt_irrefl i), if_pos rfl, if_pos (Nat.lt_succ_self i)]
      omega
    · rw [if_neg (by omega), if_neg (by omega), if_neg (by omega)]
      omega

theorem flatten_filter_partition [DecidableEq α] (f : α → ℕ) (k : ℕ)
    (l : List α) (hk : ∀ x ∈ l, f x < k) :
    ((List.range k).map (fun j => l.filter (fun x => f x == j))).flatten.Perm l := by
  rw [List.perm_iff_count]
  intro a
  rw [List.count_flatten, List.map_map]
  have hterm : ∀ j ∈ List.range k,
      (List.count a ∘ fun j => l.filter (fun x => f x == j)) j
        = (fun j => if f a = j then List.count a l else 0) j := by
    intro j _
    simp only [Function.comp_apply]
    by_cases h : f a = j
    · rw [if_pos h]
      apply List.count_filter
      simp [h]
    · rw [if_neg h, List.count_eq_zero]
      intro hmem
      rw [List.mem_filter] at hmem
      have h2 := hmem.2
      simp only [beq_iff_eq] at h2
      exact h h2
  rw [List.map_congr_left hterm, sum_map_indicator]
  by_cases ha : f a < k
  · rw [if_pos ha]
  · rw [if_neg ha, Eq.comm, List.count_eq_zero]
    intro hmem
    exact ha (hk a hmem)

theorem roundRobin_flatten_perm [DecidableEq α] (k : ℕ) (hk : 0 < k)
    (l : List α) : (roundRobinBuckets k l).flatten.Perm l := by
  unfold roundRobinBuckets
  have h1 : ((List.range k).map
        (fun j => (l.enum.filter (fun p => p.1 % k == j)).map Prod.snd)).flatten
      = (((List.range k).map
          (fun j => l.enum.filter (fun p => p.1 % k == j))).flatten).map
            Prod.snd := by
    rw [List.map_flatten, List.map_map]
    rfl
  rw [h1]
  have h2 : (((List.range k).map
        (fun j => l.enum.filter (fun p => p.1 % k == j))).flatten).Perm l.enum :=
    flatten_filter_partition (fun p => p.1 % k) k l.enum
      (fun x _ => Nat.mod_lt _ hk)
  have h3 := h2.map Prod.snd
  rw [List.enum_map_snd] at h3
  exact h3

theorem static_dispatch_flatten_perm [DecidableEq α] (M : ℕ) (items : List α) :
    (write_nii_static_dispatch M items).flatten.Perm items := by
  unfold write_nii_static_dispatch
  by_cases h1 : items.length = 1
  · rw [if_pos h1]
    simp
  · rw [if_neg h1]
    cases items with
    | nil => simp [roundRobinBuckets]
    | cons x xs =>
      apply roundRobin_flatten_perm
      have h2 : (x :: xs).length = xs.length + 1 := List.length_cons x xs
      omega

theorem process_join_wait_fin (fin : ℕ → ℕ → Bool) (p : ℕ) :
    ∀ fuel t u, process_join_wait fin p fuel t = some u → fin u p = true := by
  intro fuel
  induction fuel with
  | zero =>
    intro t u h
    simp only [process_join_wait] at h
    by_cases hf : fin t p
    · rw [if_pos hf] at h
      injection h with h2
      subst h2
      exact hf
    · rw [if_neg hf] at h
      cases h
  | succ fuel ih =>
    intro t u h
    simp only [process_join_wait] at h
    by_cases hf : fin t p
    · rw [if_pos hf] at h
      injection h with h2
      subst h2
      exact hf
    · rw [if_neg hf] at h
      exact ih (t + 1) u h

theorem join_process_list_fin (fin : ℕ → ℕ → Bool) (fuel : ℕ) :
    ∀ ps t u, join_process_list fin fuel t ps = some u →
      ∀ p ∈ ps, ∃ v, fin v p = true := by
  intro ps
  induction ps with
  | nil =>
    intro t u _ p hp
    exact absurd hp (List.not_mem_nil p)
  | cons q rest ih =>
    intro t u h p hp
    simp only [join_process_list] at h
    cases hw : process_join_wait fin q fuel t with
    | none =>
      rw [hw] at h
      cases h
    | some w =>
      rw [hw] at h
      rcases List.mem_cons.mp hp with rfl | hp2
      · exact ⟨w, process_join_wait_fin fin p fuel t w hw⟩
      · exact ih w u h p hp2

theorem poll_below_bound_mem (fin : ℕ → ℕ → Bool) (bound : ℕ) :
    ∀ fuel t ps u qs, poll_below_bound fin bound fuel t ps = some (u, qs) →
      ∀ p ∈ ps, p ∈ qs ∨ ∃ v, fin v p = true := by
  intro fuel
  induction fuel with
  | zero =>
    intro t ps u qs h p hp
    simp only [poll_below_bound] at h
    by_cases hc : ps.length < bound
    · rw [if_pos hc] at h
      injection h with h2
      injection h2 with h3 h4
      subst h4
      exact Or.inl hp
    · rw [if_neg hc] at h
      cases h
  | succ fuel ih =>
    intro t ps u qs h p hp
    simp only [poll_below_bound] at h
    by_cases hc : ps.length < bound
    · rw [if_pos hc] at h
      injection h with h2
      injection h2 with h3 h4
      subst h4
      exact Or.inl hp
    · rw [if_neg hc] at h
      by_cases hf : fin t p
      · exact Or.inr ⟨t, hf⟩
      · have hp2 : p ∈ winnow_process_list fin t ps := by
          unfold winnow_process_list
          rw [List.mem_filter]
          refine ⟨hp, ?_⟩
          simp [hf]
        exact ih (t + 1) _ u qs h p hp2

theorem poll_below_bound_len (fin : ℕ → ℕ → Bool) (bound : ℕ) :
    ∀ fuel t ps u qs, poll_below_bound fin bound fuel t ps = some (u, qs) →
      qs.length < bound := by
  intro fuel
  induction fuel with
  | zero =>
    intro t ps u qs h
    simp only [poll_below_bound] at h
    by_cases hc : ps.length < bound
    · rw [if_pos hc] at h
      injection h with h2
      injection h2 with h3 h4
      subst h4
      exact hc
    · rw [if_neg hc] at h
      cases h
  | succ fuel ih =>
    intro t ps u qs h
    simp only [poll_below_bound] at h
    by_cases hc : ps.length < bound
    · rw [if_pos hc] at h
      injection h with h2
      injection h2 with h3 h4
      subst h4
      exact hc
    · rw [if_neg hc] at h
      exact ih (t + 1) _ u qs h

theorem write_summed_object_spawn_joined (fin : ℕ → ℕ → Bool)
    (bound fuel : ℕ) :
    ∀ (pending : List (List α)) (nextPid t : ℕ) (ps log : List ℕ)
      (res : ℕ × List ℕ),
      write_summed_object_spawn fin bound fuel pending nextPid t ps log
        = some res →
      (∀ p, p < nextPid → p ∈ ps ∨ ∃ v, fin v p = true) →
      (∀ p, p < res.1 → ∃ v, fin v p = true)
        ∧ res.1 = nextPid + pending.length := by
  intro pending
  induction pending with
  | nil =>
    intro nextPid t ps log res h hinv
    simp only [write_summed_object_spawn] at h
    cases hj : join_process_list fin fuel t ps with
    | none =>
      rw [hj] at h
      cases h
    | some w =>
      rw [hj] at h
      simp only [Option.map_some'] at h
      injection h with h2
      subst h2
      refine ⟨?_, by simp⟩
      intro p hp
      rcases hinv p hp with hmem | hfin
      · exact join_process_list_fin fin fuel ps t w hj p hmem
      · exact hfin
  | cons c rest ih =>
    intro nextPid t ps log res h hinv
    simp only [write_summed_object_spawn] at h
    cases hpoll : poll_below_bound fin bound fuel t (ps ++ [nextPid]) with
    | none =>
      rw [hpoll] at h
      cases h
    | some uqs =>
      obtain ⟨u, qs⟩ := uqs
      rw [hpoll] at h
      have hinv2 : ∀ p, p < nextPid + 1 → p ∈ qs ∨ ∃ v, fin v p = true := by
        intro p hp
        have hmem0 : p ∈ ps ++ [nextPid] ∨ ∃ v, fin v p = true := by
          rcases Nat.lt_or_ge p nextPid with h1 | h1
          · rcases hinv p h1 with h2 | h2
            · exact Or.inl (List.mem_append_left _ h2)
            · exact Or.inr h2
          · have hpe : p = nextPid := by omega
            subst hpe
            exact Or.inl (List.mem_append_right _ (List.mem_singleton_self _))
        rcases hmem0 with h2 | h2
        · exact poll_below_bound_mem fin bound fuel t _ u qs hpoll p h2
        · exact Or.inr h2
      have hres := ih (nextPid + 1) u qs (log ++ [ps.length]) res h hinv2
      refine ⟨hres.1, ?_⟩
      rw [hres.2, List.length_cons]
      omega

theorem write_summed_object_spawn_log (fin : ℕ → ℕ → Bool)
    (bound fuel : ℕ) :
    ∀ (pending : List (List α)) (nextPid t : ℕ) (ps log : List ℕ)
      (res : ℕ × List ℕ),
      write_summed_object_spawn fin bound fuel pending nextPid t ps log
        = some res →
      ps.length < bound → (∀ x ∈ log, x < bound) →
      ∀ x ∈ res.2, x < bound := by
  intro pending
  induction pending with
  | nil =>
    intro nextPid t ps log res h hps hlog
    simp only [write_summed_object_spawn] at h
    cases hj : join_process_list fin fuel t ps with
    | none =>
      rw [hj] at h
      cases h
    | some w =>
      rw [hj] at h
      simp only [Option.map_some'] at h
      injection h with h2
      subst h2
      exact hlog
  | cons c rest ih =>
    intro nextPid t ps log res h hps hlog
    simp only [write_summed_object_spawn] at h
    cases hpoll : poll_below_bound fin bound fuel t (ps ++ [nextPid]) with
    | none =>
      rw [hpoll] at h
      cases h
    | some uqs =>
      obtain ⟨u, qs⟩ := uqs
      rw [hpoll] at h
      refine ih (nextPid + 1) u qs (log ++ [ps.length]) res h ?_ ?_
      · exact poll_below_bound_len fin bound fuel t _ u qs hpoll
      · intro x hx
        rcases List.mem_append.mp hx with hx1 | hx2
        · exact hlog x hx1
        · rw [List.mem_singleton] at hx2
          subst hx2
          exact hps

/-- Claim C3: for every 3-D array shape and configured chunk cap (a positive
cap, as at every call site), the chunk shape used for writing satisfies
`chunk[d] = max(1, min(shape[d] // 4, cap))` in each spatial dimension; when
`shape[d] // 4 >= 1` the chunk lies in `[1, min(shape[d] // 4, cap)]`, and it
is never zero. -/
theorem chunk_shape_bounds (shape : ℕ × ℕ × ℕ) (cap : ℕ) (hcap : 1 ≤ cap) :
    write_array_to_group_chunks shape cap
      = (max 1 (min (shape.1 / 4) cap),
         max 1 (min (shape.2.1 / 4) cap),
         max 1 (min (shape.2.2 / 4) cap)) ∧
    1 ≤ (write_array_to_group_chunks shape cap).1 ∧
    1 ≤ (write_array_to_group_chunks shape cap).2.1 ∧
    1 ≤ (write_array_to_group_chunks shape cap).2.2 ∧
    (1 ≤ shape.1 / 4 →
      1 ≤ (write_array_to_group_chunks shape cap).1 ∧
      (write_array_to_group_chunks shape cap).1 ≤ min (shape.1 / 4) cap) ∧
    (1 ≤ shape.2.1 / 4 →
      1 ≤ (write_array_to_group_chunks shape cap).2.1 ∧
      (write_array_to_group_chunks shape cap).2.1 ≤ min (shape.2.1 / 4) cap) ∧
    (1 ≤ shape.2.2 / 4 →
      1 ≤ (write_array_to_group_chunks shape cap).2.2 ∧
      (write_array_to_group_chunks shape cap).2.2 ≤ min (shape.2.2 / 4) cap) := by
  unfold write_array_to_group_chunks
  refine ⟨rfl, ?_, ?_, ?_, ?_, ?_, ?_⟩ <;> simp only [] <;> omega

/-- Witness for C3 at shape (8, 9, 100) and cap 64. -/
theorem chunk_shape_bounds_witness :
    1 ≤ 64 ∧
    1 ≤ (write_array_to_group_chunks (8, 9, 100) 64).1 ∧
    (write_array_to_group_chunks (8, 9, 100) 64).1 ≤ min (8 / 4) 64 := by
  have h := chunk_shape_bounds (8, 9, 100) 64 (by decide)
  exact ⟨by decide, (h.2.2.2.2.1 (by decide)).1, (h.2.2.2.2.1 (by decide)).2⟩

/-- Claim C7: root-store creation fails exactly when the output root already
exists and clobber was not requested, and in that case the filesystem state
is untouched; clobber on an existing root destroys it and recreates it
empty; a missing root is created empty. -/
theorem create_root_group_semantics (root : Option (List String))
    (clobber : Bool) :
    ((create_root_group root clobber).1
        = Except.error (PyError.runtimeError (some "exists"))
      ↔ root.isSome = true ∧ clobber = false) ∧
    (∀ e, (create_root_group root clobber).1 = Except.error e →
      (create_root_group root clobber).2 = root) ∧
    (root.isSome = true → clobber = true →
      (create_root_group root clobber).2 = some []) ∧
    (root = none → (create_root_group root clobber).2 = some []) := by
  cases root with
  | none =>
    refine ⟨⟨fun h => ?_, fun h => ?_⟩, fun e h => ?_, fun h hcl => ?_,
            fun _ => rfl⟩
    · exact absurd h (by simp [create_root_group])
    · exact absurd h.1 (by simp)
    · exact absurd h (by simp [create_root_group])
    · exact absurd h (by simp)
  | some cs =>
    cases clobber with
    | false =>
      refine ⟨⟨fun _ => ⟨rfl, rfl⟩, fun _ => rfl⟩, fun e _ => rfl,
              fun _ h => ?_, fun h => ?_⟩
      · exact absurd h (by simp)
      · exact absurd h (by simp)
    | true =>
      refine ⟨⟨fun h => ?_, fun h => ?_⟩, fun e h => ?_, fun _ _ => rfl,
              fun h => ?_⟩
      · exact absurd h (by simp [create_root_group])
      · exact absurd h.2 (by simp)
      · exact absurd h (by simp [create_root_group])
      · exact absurd h (by simp)

/-- Witness for C7: an existing root with clobber unset fails with the
exists error and is left untouched. -/
theorem create_root_group_semantics_witness :
    (create_root_group (some ["node"]) false).1
        = Except.error (PyError.runtimeError (some "exists")) ∧
    (create_root_group (some ["node"]) false).2 = some ["node"] := by
  have h := create_root_group_semantics (some ["node"]) false
  refine ⟨h.1.mpr ⟨rfl, rfl⟩, ?_⟩
  exact h.2.1 (PyError.runtimeError (some "exists")) (h.1.mpr ⟨rfl, rfl⟩)

/-- Claim C8 (evidence for the code bug): with no manifest at the
destination, the copy step raises `AttributeError` because `shutil.cp` does
not exist (the standard-library function is `shutil.copy`), so the manifest
is never copied; with a manifest already present it raises `RuntimeError`
as the claim describes. -/
theorem manifest_copy_attribute_error :
    write_sub_group_copy_manifest false
      = Except.error (PyError.attributeError "shutil" "cp") ∧
    write_sub_group_copy_manifest true
      = Except.error
          (PyError.runtimeError (some "manifest.csv already exists")) ∧
    shutil_getattr "copy" = some "copy" ∧
    shutil_getattr "cp" = none := by
  refine ⟨rfl, rfl, by decide, by decide⟩

/-- Claim C10: when the file list and the group-name list have different
lengths, the entry of `write_nii_file_list_to_ome_zarr` builds the mismatch
message but raises nothing, and the conversion proceeds with both mismatched
lists unchanged. -/
theorem length_mismatch_never_raised (fps gns : List String)
    (h : fps.length ≠ gns.length) :
    write_nii_file_list_to_ome_zarr_entry fps gns
      = Except.ok (fps, gns,
          some ("gave " ++ toString fps.length ++ " file paths but "
            ++ toString gns.length ++ " group names")) := by
  simp [write_nii_file_list_to_ome_zarr_entry, h]

/-- Witness for C10 at one file path and zero group names. -/
theorem length_mismatch_never_raised_witness :
    write_nii_file_list_to_ome_zarr_entry ["a.nii.gz"] []
      = Except.ok (["a.nii.gz"], ([] : List String),
          some ("gave " ++ toString (["a.nii.gz"] : List String).length
            ++ " file paths but " ++ toString ([] : List String).length
            ++ " group names")) :=
  length_mismatch_never_raised ["a.nii.gz"] [] (by decide)

/-- Claim C9: `write_sub_group` converts at most the first ten matching
`.nii.gz` files of the input directory: the selection is exactly
`matching.take 10`, its length never exceeds ten, and (the paths returned by
`rglob` being pairwise distinct) a file at index ten or later is never part
of the converted selection. -/
theorem write_sub_group_truncates_to_ten (entries : List (String × Bool)) :
    write_sub_group_file_selection entries
      = ((entries.filter (fun e => e.2)).map (fun e => e.1)).take 10 ∧
    (write_sub_group_file_selection entries).length ≤ 10 ∧
    (((entries.filter (fun e => e.2)).map (fun e => e.1)).Nodup →
      ∀ i (hi : i < ((entries.filter (fun e => e.2)).map
            (fun e => e.1)).length),
        10 ≤ i →
        ((entries.filter (fun e => e.2)).map (fun e => e.1)).get ⟨i, hi⟩
          ∉ write_sub_group_file_selection entries) := by
  refine ⟨rfl, ?_, ?_⟩
  · unfold write_sub_group_file_selection
    rw [List.length_take]
    exact min_le_left _ _
  · intro hnd i hi h10 hmem
    unfold write_sub_group_file_selection at hmem
    have hsplit := List.take_append_drop 10
      ((entries.filter (fun e => e.2)).map (fun e => e.1))
    have hnd2 : (((entries.filter (fun e => e.2)).map
          (fun e => e.1)).take 10
        ++ ((entries.filter (fun e => e.2)).map
          (fun e => e.1)).drop 10).Nodup := by
      rw [hsplit]
      exact hnd
    rw [List.nodup_append] at hnd2
    have hb : i - 10 < (((entries.filter (fun e => e.2)).map
        (fun e => e.1)).drop 10).length := by
      rw [List.length_drop]
      omega
    refine hnd2.2.2 hmem ?_
    rw [List.mem_iff_getElem]
    refine ⟨i - 10, hb, ?_⟩
    rw [List.getElem_drop, List.get_eq_getElem]
    congr 1
    show 10 + (i - 10) = i
    omega

/-- Witness for C9: with twelve matching files, only the first ten are
selected and the file at index ten is not among them. -/
theorem write_sub_group_truncates_to_ten_witness :
    write_sub_group_file_selection
        [("f00", true), ("f01", true), ("f02", true), ("f03", true),
         ("f04", true), ("f05", true), ("f06", true), ("f07", true),
         ("f08", true), ("f09", true), ("f10", true), ("f11", true)]
      = ["f00", "f01", "f02", "f03", "f04", "f05", "f06", "f07",
         "f08", "f09"] ∧
    "f10" ∉ write_sub_group_file_selection
        [("f00", true), ("f01", true), ("f02", true), ("f03", true),
         ("f04", true), ("f05", true), ("f06", true), ("f07", true),
         ("f08", true), ("f09", true), ("f10", true), ("f11", true)] := by
  refine ⟨rfl, ?_⟩
  exact (write_sub_group_truncates_to_ten
      [("f00", true), ("f01", true), ("f02", true), ("f03", true),
       ("f04", true), ("f05", true), ("f06", true), ("f07", true),
       ("f08", true), ("f09", true), ("f10", true), ("f11", true)]).2.2
    (by decide) 10 (by decide) (by decide)

/-- First summed source of the C4 failing input: a one-voxel `uint8` array
holding 200, physical scales (1, 1, 1) millimeters. -/
def narrow_source : NiftiChannel := ⟨(1, 1, 1), (1, 1, 1), 8, fun _ => 200⟩

/-- Second summed source of the C4 failing input: a one-voxel `uint32` array
holding 1000, same shape and scales. -/
def wide_source : NiftiChannel := ⟨(1, 1, 1), (1, 1, 1), 32, fun _ => 1000⟩

/-- Claim C4 (evidence for the code bug): summing a `uint8` source holding
200 with a `uint32` source holding 1000 accumulates in place in the dtype of
the FIRST source, producing `(200 + 1000) mod 2^8 = 176` at width 8 instead
of the elementwise sum 1200 at a precision at least as wide as the widest
(32-bit) input.  The zero-source half of the claim holds: a target whose
cluster list resolves to no file is not created and causes no error. -/
theorem summed_aggregation_narrow_accumulator :
    (write_summed_nii_files_to_group [narrow_source, wide_source]).toOption.map
        (fun c => c.data (0, 0, 0)) = some 176 ∧
    elementwise_sum [narrow_source, wide_source] (0, 0, 0) = 1200 ∧
    (write_summed_nii_files_to_group [narrow_source, wide_source]).toOption.map
        NiftiChannel.width = some 8 ∧
    max narrow_source.width wide_source.width = 32 ∧
    write_summed_object_worker_created
        [("class1", ["A", "B"]), ("class2", ["Z"])]
        [("A", "pathA"), ("B", "pathB")]
        ["class1", "class2"]
      = ["class1"] := by
  exact ⟨rfl, rfl, rfl, rfl, rfl⟩

/-- First source of the C5 shape-mismatch failing input. -/
def shape_source_a : NiftiChannel := ⟨(2, 2, 2), (1, 1, 1), 8, fun _ => 1⟩

/-- Second source of the C5 shape-mismatch failing input: different shape. -/
def shape_source_b : NiftiChannel := ⟨(3, 3, 3), (1, 1, 1), 8, fun _ => 1⟩

/-- First source of the C5 scale-mismatch failing input. -/
def scale_source_a : NiftiChannel := ⟨(2, 2, 2), (1, 1, 1), 8, fun _ => 1⟩

/-- Second source of the C5 scale-mismatch failing input: different
physical scales. -/
def scale_source_b : NiftiChannel := ⟨(2, 2, 2), (2, 2, 2), 8, fun _ => 1⟩

/-- Claim C5 (evidence for the code bug): on a shape mismatch, and likewise
on a scale mismatch, the aggregation raises `NameError` for the undefined
variable `main_path` (the bound variable is `main_pth`), not a
`RuntimeError` naming the mismatching pair of sources. -/
theorem summed_mismatch_raises_name_error :
    write_summed_nii_files_to_group [shape_source_a, shape_source_b]
      = Except.error (PyError.nameError "main_path") ∧
    write_summed_nii_files_to_group [scale_source_a, scale_source_b]
      = Except.error (PyError.nameError "main_path") := by
  exact ⟨rfl, rfl⟩

/-- Claim C1: for every pyramid level (the base shape followed by the level
shapes produced by the downscaler), the transform recorded for level `i`
along each spatial dimension `d` equals
`level0_scale[d] * level0_shape[d] / level_i_shape[d]`, and the transform
recorded for level 0 is exactly the input physical scale. -/
theorem coord_transform_scale_invariant (xs ys zs : ℚ) (shape : ℕ × ℕ × ℕ)
    (downscale : ℕ) (levels : List (ℕ × ℕ × ℕ))
    (h1 : 0 < shape.1) (h2 : 0 < shape.2.1) (h3 : 0 < shape.2.2) :
    (write_array_to_group_coord_transform xs ys zs shape downscale
        levels).length
      = (pyramid_shapes shape downscale levels).length ∧
    (write_array_to_group_coord_transform xs ys zs shape downscale
        levels).head?
      = some (xs, ys, zs) ∧
    ∀ i (hi : i < (write_array_to_group_coord_transform xs ys zs shape
          downscale levels).length)
      (hs : i < (pyramid_shapes shape downscale levels).length),
      (write_array_to_group_coord_transform xs ys zs shape downscale
          levels).get ⟨i, hi⟩
        = (xs * (shape.1 : ℚ)
             / (((pyramid_shapes shape downscale levels).get ⟨i, hs⟩).1 : ℚ),
           ys * (shape.2.1 : ℚ)
             / (((pyramid_shapes shape downscale levels).get
                  ⟨i, hs⟩).2.1 : ℚ),
           zs * (shape.2.2 : ℚ)
             / (((pyramid_shapes shape downscale levels).get
                  ⟨i, hs⟩).2.2 : ℚ)) := by
  have e1 : (shape.1 : ℚ) ≠ 0 := Nat.cast_ne_zero.mpr (by omega)
  have e2 : (shape.2.1 : ℚ) ≠ 0 := Nat.cast_ne_zero.mpr (by omega)
  have e3 : (shape.2.2 : ℚ) ≠ 0 := Nat.cast_ne_zero.mpr (by omega)
  unfold write_array_to_group_coord_transform pyramid_shapes
  by_cases hd : 1 < downscale
  · rw [if_pos hd, if_pos hd]
    refine ⟨by rw [List.length_cons, List.length_cons, List.length_map],
            rfl, ?_⟩
    intro i hi hs
    match i with
    | 0 =>
      simp only [List.get_eq_getElem, List.getElem_cons_zero]
      rw [mul_div_cancel_right₀ _ e1, mul_div_cancel_right₀ _ e2,
          mul_div_cancel_right₀ _ e3]
    | Nat.succ j =>
      simp only [List.get_eq_getElem, List.getElem_cons_succ,
        List.getElem_map]
  · rw [if_neg hd, if_neg hd]
    refine ⟨rfl, rfl, ?_⟩
    intro i hi hs
    match i with
    | 0 =>
      simp only [List.get_eq_getElem, List.getElem_cons_zero,
        List.getElem_singleton]
      rw [mul_div_cancel_right₀ _ e1, mul_div_cancel_right₀ _ e2,
          mul_div_cancel_right₀ _ e3]

/-- Witness for C1 at scales (1, 2, 3), base shape (4, 4, 2), downscale 2
and one downsampled level. -/
theorem coord_transform_scale_invariant_witness :
    0 < 4 ∧
    (write_array_to_group_coord_transform 1 2 3 (4, 4, 2) 2
        [(2, 2, 1)]).head? = some (1, 2, 3) :=
  ⟨by decide,
   (coord_transform_scale_invariant 1 2 3 (4, 4, 2) 2 [(2, 2, 1)]
      (by decide) (by decide) (by decide)).2.1⟩

/-- Claim C2: under the static round-robin policy the buckets taken together
process every item exactly once (their concatenation is a permutation of the
item list; a singleton list is processed inline), under the dynamic policy
the chunks concatenate back to exactly the item list, and either pool, when
it returns, has observed the termination of every process it spawned: the
static pool joins each of its `k` processes, and the dynamic pool returns
only once every spawned pid has been seen terminated by the schedule. -/
theorem worker_pool_exactly_once (α : Type) [DecidableEq α] (items : List α)
    (M fuel : ℕ) (fin : ℕ → ℕ → Bool) :
    (write_nii_static_dispatch M items).flatten.Perm items ∧
    (write_summed_object_chunks M items).flatten = items ∧
    (∀ k u, write_nii_static_pool fin fuel k = some u →
       ∀ p ∈ List.range k, ∃ v, fin v p = true) ∧
    (∀ res, write_summed_object_pool fin fuel M items = some res →
       ∀ p, p < res.1 → ∃ v, fin v p = true) := by
  refine ⟨static_dispatch_flatten_perm M items, ?_, ?_, ?_⟩
  · exact chunksOf_flatten _ (by omega) items
  · intro k u h p hp
    exact join_process_list_fin fin fuel (List.range k) 0 u h p hp
  · intro res h p hp
    exact (write_summed_object_spawn_joined fin (max 1 (M - 1)) fuel
        (write_summed_object_chunks M items) 0 0 [] [] res h
        (fun q hq => absurd hq (Nat.not_lt_zero q))).1 p hp

/-- Witness for C2: both pools run to completion on a three-item list under
the all-terminated schedule, and the theorem yields termination evidence for
their processes. -/
theorem worker_pool_exactly_once_witness :
    write_nii_static_pool (fun _ _ : ℕ => true) 1 2 = some 0 ∧
    write_summed_object_pool (fun _ _ : ℕ => true) 5 3 [10, 20, 30]
      = some (3, [0, 1, 0]) ∧
    (∃ v, (fun _ _ : ℕ => true) v 1 = true) ∧
    (∃ v, (fun _ _ : ℕ => true) v 2 = true) := by
  refine ⟨rfl, rfl, ?_, ?_⟩
  · exact (worker_pool_exactly_once ℕ [10, 20, 30] 3 5
        (fun _ _ => true)).2.2.1 2 0 rfl 1 (by decide)
  · exact (worker_pool_exactly_once ℕ [10, 20, 30] 3 5
        (fun _ _ => true)).2.2.2 (3, [0, 1, 0]) rfl 2 (by decide)

/-- Counterexample for C6 as stated: with five items and `n_processors = 3`
the worker bound is `max(1, 3 - 1) = 2`, the claimed chunk size is
`ceil(5 / 2) = 3`, but the code chunks with stride
`max(1, floor(5 / 2)) = 2`, producing chunk sizes `[2, 2, 1]`, not
`[3, 2]`. -/
theorem dynamic_chunk_size_counterexample :
    (write_summed_object_chunks 3 [1, 2, 3, 4, 5]).map List.length
      = [2, 2, 1] ∧
    max 1 (3 - 1) = 2 ∧
    (5 + 2 - 1) / 2 = 3 ∧
    (write_summed_object_chunks 3 [1, 2, 3, 4, 5]).map List.length
      ≠ [3, 2] := by
  refine ⟨rfl, rfl, rfl, by decide⟩

/-- Claim C6 (amended): the dynamic policy groups the items into contiguous
chunks of stride `max(1, floor(len(items) / maxWorkers))` (each chunk is
non-empty, no chunk exceeds the stride, and the chunks concatenate back to
the item list in order), one worker process is launched per chunk, and
whenever a process is spawned the process list held by the launcher is
strictly below the worker bound, the launcher having blocked (polling and
reaping finished processes) until that was so. -/
theorem dynamic_spawn_chunking (α : Type) (items : List α) (M fuel : ℕ)
    (fin : ℕ → ℕ → Bool) :
    write_summed_object_chunks M items
      = chunksOf (max 1 (items.length / max 1 (M - 1))) items ∧
    (write_summed_object_chunks M items).flatten = items ∧
    (∀ c ∈ write_summed_object_chunks M items,
       c ≠ [] ∧ c.length ≤ max 1 (items.length / max 1 (M - 1))) ∧
    (∀ res, write_summed_object_pool fin fuel M items = some res →
       res.1 = (write_summed_object_chunks M items).length ∧
       ∀ x ∈ res.2, x < max 1 (M - 1)) := by
  refine ⟨rfl, chunksOf_flatten _ (by omega) items,
          chunksOf_mem_length _ (by omega) items, ?_⟩
  intro res h
  constructor
  · have hcount := (write_summed_object_spawn_joined fin (max 1 (M - 1)) fuel
        (write_summed_object_chunks M items) 0 0 [] [] res h
        (fun q hq => absurd hq (Nat.not_lt_zero q))).2
    omega
  · refine write_summed_object_spawn_log fin (max 1 (M - 1)) fuel
      (write_summed_object_chunks M items) 0 0 [] [] res h ?_ ?_
    · simp only [List.length_nil]
      omega
    · intro x hx
      exact absurd hx (List.not_mem_nil x)

/-- Witness for C6: the dynamic pool on five items with `n_processors = 3`
completes under the all-terminated schedule, spawns one process per chunk
(three), and every logged spawn happened with fewer than two processes
held. -/
theorem dynamic_spawn_chunking_witness :
    write_summed_object_pool (fun _ _ : ℕ => true) 5 3 [1, 2, 3, 4, 5]
      = some (3, [0, 1, 0]) ∧
    3 = (write_summed_object_chunks 3 [1, 2, 3, 4, 5]).length := by
  refine ⟨rfl, ?_⟩
  exact ((dynamic_spawn_chunking ℕ [1, 2, 3, 4, 5] 3 5
      (fun _ _ => true)).2.2.2 (3, [0, 1, 0]) rfl).1
